import Mathlib

/-!
Verification development for the audio-room session manager
(`src/unnamed/part_002`, the `AudioRoomPage` client component).

The component is a single-threaded event-driven loop: every mutation of the
session state happens inside one of the event callbacks (presence sync,
broadcast signal receipt, the peer-plan effect, the debounced mic timer,
role-toggle handlers, connection-state rebuild timers, and the effect
cleanup).  We embed that state shallowly: the mutable refs and React state
of the page become fields of `RoomState`, and each callback becomes a pure
function `RoomState → RoomState`.  `step` dispatches a delivered event and
`runEvents` folds a whole trace, letting us state trace invariants.

Conventions of the embedding:
* `pool` models `peersRef.current` (a JS object keyed by remote id) as an
  association list with the object-semantics operations (single-key lookup,
  create-if-absent, delete by key).
* Each created peer gets a fresh `pid` from a counter, so "the old link was
  destroyed and a brand-new one exists" is expressible; `destroyCalled`
  logs the pids on which `destroy()` was invoked.
* `activeLog` records every `setRoomActive` write attempt in order (the
  page fires the update and ignores failures), so "the active flag is
  written true at most once" is a statement about this log.
* Exceptions swallowed by the page's `try { } catch {}` blocks are modelled
  by the throw-flag parameters of `teardown`: the resulting state does not
  depend on them, which is exactly the swallow-and-continue discipline.
* `profileId` is a plain `String`: every callback that touches the pool is
  mounted only once `profileId` is non-null (the wiring effect returns
  early otherwise), and it never reverts to null while the page is mounted.
-/

namespace AudioRoom

/-- Participant role, `'speaker' | 'listener'` in the source. -/
inductive Role where
  | speaker
  | listener
deriving DecidableEq

/-- A media stream: an identity plus its track ids (`stream.getTracks()`). -/
structure MediaStream where
  sid : Nat
  tracks : List Nat
deriving DecidableEq

/-- One entry of `peersRef.current`: a `simple-peer` instance.  `pid` is the
object identity of the JS peer object, `initiator` the flag passed to the
constructor, `inbox` the signals routed into it via `.signal(data)`, and
`tracks` the local tracks attached via `addTrack`. -/
structure PeerLink where
  pid : Nat
  initiator : Bool
  inbox : List Nat
  tracks : List Nat
deriving DecidableEq

/-- Browser environment consulted by `startMic`: secure context,
availability of `getUserMedia`, and the stream the user grants (none when
permission is denied). -/
structure MicEnv where
  secure : Bool
  hasGUM : Bool
  granted : Option MediaStream
deriving DecidableEq

/-- The session state of `AudioRoomPage`: React state plus the mutable refs. -/
structure RoomState where
  profileId : String
  isOwner : Bool
  myRole : Role
  participants : List (String × Role)
  pool : List (String × PeerLink)
  localStream : Option MediaStream
  stoppedTracks : List Nat
  remoteStreams : List (String × Nat)
  madeActiveOnce : Bool
  roomActive : Bool
  activeLog : List Bool
  nextPid : Nat
  destroyCalled : List Nat
  tracked : Bool
  subscribed : Bool
deriving DecidableEq

/-- `isInitiator` from the source: tie-breaker for who initiates,
`myId < remoteId` under string ordering. -/
def isInitiator (myId remoteId : String) : Bool :=
  myId < remoteId

/-- Lookup in a JS object viewed as an association list
(`peersRef.current[rid]`, `remoteStreams[rid]`). -/
def alookup {α : Type} : List (String × α) → String → Option α
  | [], _ => none
  | p :: ps, k => if p.1 = k then some p.2 else alookup ps k

/-- `setRoomActive`: best-effort conditional update of
`posts.audio_room_active`; every call is recorded in `activeLog`. -/
def setRoomActive (active : Bool) (s : RoomState) : RoomState :=
  { s with roomActive := active, activeLog := s.activeLog ++ [active] }

/-- `createPeer`: allocate a fresh `simple-peer` object with the given
initiator flag (the pool insertion is done by the callers, as in the
source). -/
def createPeer (initiator : Bool) (s : RoomState) : PeerLink × RoomState :=
  ({ pid := s.nextPid, initiator := initiator, inbox := [], tracks := [] },
   { s with nextPid := s.nextPid + 1 })

/-- `attachLocalTracksToPeer`, under the guard the callers use:
`if (myRole === 'speaker' && localStreamRef.current)`. -/
def attachTracks (s : RoomState) (l : PeerLink) : PeerLink :=
  if s.myRole = Role.speaker then
    match s.localStream with
    | some st => { l with tracks := l.tracks ++ st.tracks }
    | none => l
  else l

/-- Candidate list of the peer-plan effect:
`participants.filter(p => p.ap_profile_id !== profileId)
             .filter(p => myRole === 'speaker' || p.role === 'speaker')`. -/
def planCandidates (s : RoomState) : List (String × Role) :=
  (s.participants.filter (fun p => decide (p.1 ≠ s.profileId))).filter
    (fun p => decide (s.myRole = Role.speaker) || decide (p.2 = Role.speaker))

/-- Body of the `candidates.forEach` loop of the peer-plan effect: create a
peer for this candidate unless one already exists. -/
def planStep (s : RoomState) (p : String × Role) : RoomState :=
  match alookup s.pool p.1 with
  | some _ => s
  | none =>
    let pr := createPeer (isInitiator s.profileId p.1) s
    let link := attachTracks pr.2 pr.1
    { pr.2 with pool := (p.1, link) :: pr.2.pool }

/-- The peer-plan effect (creation part): connect to any remote where
(I am a speaker) or (they are a speaker). -/
def planEffect (s : RoomState) : RoomState :=
  (planCandidates s).foldl planStep s

/-- `peersRef.current[from].signal(data)`: route a payload into the pool
entry for `rid`. -/
def routeTo (pool : List (String × PeerLink)) (rid : String) (d : Nat) :
    List (String × PeerLink) :=
  pool.map (fun p =>
    if p.1 = rid then (p.1, { p.2 with inbox := p.2.inbox ++ [d] }) else p)

/-- The broadcast `signal` handler: drop echoes of our own envelopes,
otherwise create a responder-side peer on demand (`createPeer(i && false,
from)`) and route the payload into it. -/
def recvSignal (src : String) (d : Nat) (s : RoomState) : RoomState :=
  if src = s.profileId then s
  else
    let s1 :=
      match alookup s.pool src with
      | some _ => s
      | none =>
        let pr := createPeer (isInitiator s.profileId src && false) s
        let link := attachTracks pr.2 pr.1
        { pr.2 with pool := (src, link) :: pr.2.pool }
    { s1 with pool := routeTo s1.pool src d }

/-- The `channel.subscribe` callback once status is `SUBSCRIBED`: if our
presence is not yet tracked, announce the initial role (`isOwner ?
'speaker' : 'listener'`) and, when the owner auto-starts as speaker, flip
the active flag true once. -/
def subscribedCb (s : RoomState) : RoomState :=
  if s.tracked = true then { s with subscribed := true }
  else
    let initial : Role := if s.isOwner = true then Role.speaker else Role.listener
    let s1 := { s with subscribed := true, tracked := true, myRole := initial }
    if initial = Role.speaker ∧ s.isOwner = true ∧ s.madeActiveOnce = false then
      setRoomActive true { s1 with madeActiveOnce := true }
    else s1

/-- `startMic`: no-op unless speaker, idempotent while a stream is held,
guarded by secure context and API availability; on success the shared
stream is stored and its tracks attached to every existing peer. -/
def startMic (env : MicEnv) (s : RoomState) : RoomState :=
  if s.myRole ≠ Role.speaker then s
  else if s.localStream.isSome = true then s
  else if env.secure = false then s
  else if env.hasGUM = false then s
  else
    match env.granted with
    | none => s
    | some stream =>
      { s with localStream := some stream,
               pool := s.pool.map (fun p =>
                 (p.1, { p.2 with tracks := p.2.tracks ++ stream.tracks })) }

/-- `stopMic`: stop every track of the held stream, if any, and drop it. -/
def stopMic (s : RoomState) : RoomState :=
  match s.localStream with
  | none => s
  | some st =>
    { s with localStream := none, stoppedTracks := s.stoppedTracks ++ st.tracks }

/-- The debounced mic-control timer body: start the mic when speaker,
stop it otherwise. -/
def micTimer (env : MicEnv) (s : RoomState) : RoomState :=
  if s.myRole = Role.speaker then startMic env s else stopMic s

/-- `becomeSpeaker`: rejected outright for non-owners; otherwise switch the
role and flip the active flag true if this session has not done so yet. -/
def becomeSpeaker (s : RoomState) : RoomState :=
  if s.isOwner = false then s
  else
    let s1 := { s with myRole := Role.speaker }
    if s1.madeActiveOnce = true then s1
    else setRoomActive true { s1 with madeActiveOnce := true }

/-- `becomeListener`: switch the role; the owner also marks the room
inactive. -/
def becomeListener (s : RoomState) : RoomState :=
  let s1 := { s with myRole := Role.listener }
  if s1.isOwner = true then setRoomActive false s1 else s1

/-- `endRoom`: owner-only explicit shutdown. -/
def endRoom (s : RoomState) : RoomState :=
  if s.isOwner = false then s
  else setRoomActive false { stopMic s with myRole := Role.listener }

/-- `attemptRebuild`: no-op when no pool entry exists for `rid`; otherwise
destroy the existing link, delete it, purge its remote stream, and insert a
single fresh replacement built with the same initiator rule. -/
def attemptRebuild (rid : String) (s : RoomState) : RoomState :=
  match alookup s.pool rid with
  | none => s
  | some cur =>
    let s1 := { s with destroyCalled := s.destroyCalled ++ [cur.pid],
                       pool := s.pool.filter (fun p => decide (p.1 ≠ rid)),
                       remoteStreams :=
                         s.remoteStreams.filter (fun p => decide (p.1 ≠ rid)) }
    let pr := createPeer (isInitiator s1.profileId rid) s1
    let link := attachTracks pr.2 pr.1
    { pr.2 with pool := (rid, link) :: pr.2.pool }

/-- The fixed delay before a scheduled rebuild (`setTimeout(..., 1500)`). -/
def rebuildDelayMs : Nat := 1500

/-- RTCPeerConnection state values observed by the listeners. -/
inductive ConnState where
  | fresh
  | checking
  | connected
  | completed
  | failed
  | disconnected
  | closed
deriving DecidableEq

/-- The ICE/connection state-change listeners: schedule a rebuild after the
fixed delay iff the state is `failed` or `disconnected`. -/
def scheduleRebuildDelay (st : ConnState) : Option Nat :=
  if st = ConnState.failed ∨ st = ConnState.disconnected then some rebuildDelayMs
  else none

/-- `attachRemote`: record the remote stream for `rid` in the visible state
(object-spread replace semantics). -/
def attachRemote (rid : String) (sid : Nat) (s : RoomState) : RoomState :=
  { s with remoteStreams :=
      (rid, sid) :: s.remoteStreams.filter (fun p => decide (p.1 ≠ rid)) }

/-- The wiring-effect cleanup (leaving the room).  The boolean and list
parameters model which guarded sub-steps throw; the try/catch blocks
swallow those exceptions, so the resulting state does not depend on them.
Under the hot-reload exemption (`isDev && hmrDisposingRef.current`) the
whole teardown is skipped. -/
def teardown (isDev hmr : Bool) (_unsubThrows : Bool)
    (_destroyThrows : List String) (s : RoomState) : RoomState :=
  if isDev = true ∧ hmr = true then s
  else
    let s1 := { s with subscribed := false,
                       destroyCalled :=
                         s.destroyCalled ++ s.pool.map (fun p => p.2.pid),
                       pool := [] }
    let s2 := stopMic s1
    let s3 := { s2 with remoteStreams := [] }
    if s3.isOwner = true then setRoomActive false s3 else s3

/-- A presence-sync event: recompute the participant list from the synced
state, substituting the locally-known role for the local id. -/
def presenceSync (ps : List (String × Role)) (s : RoomState) : RoomState :=
  { s with participants :=
      ps.map (fun p => if p.1 = s.profileId then (p.1, s.myRole) else p) }

/-- The events delivered to the page's single-threaded loop. -/
inductive Event where
  | presenceEv (ps : List (String × Role))
  | subscribedEv
  | signalEv (src : String) (d : Nat)
  | planEv
  | micTimerEv (env : MicEnv)
  | speakerEv
  | listenerEv
  | endRoomEv
  | rebuildEv (rid : String)
  | streamEv (rid : String) (sid : Nat)
  | teardownEv (isDev hmr unsubThrows : Bool) (destroyThrows : List String)

/-- Dispatch one delivered event. -/
def step (e : Event) (s : RoomState) : RoomState :=
  match e with
  | Event.presenceEv ps => presenceSync ps s
  | Event.subscribedEv => subscribedCb s
  | Event.signalEv src d => recvSignal src d s
  | Event.planEv => planEffect s
  | Event.micTimerEv env => micTimer env s
  | Event.speakerEv => becomeSpeaker s
  | Event.listenerEv => becomeListener s
  | Event.endRoomEv => endRoom s
  | Event.rebuildEv rid => attemptRebuild rid s
  | Event.streamEv rid sid => attachRemote rid sid s
  | Event.teardownEv isDev hmr u t => teardown isDev hmr u t s

/-- Run a trace of events. -/
def runEvents (evs : List Event) (s : RoomState) : RoomState :=
  evs.foldl (fun s e => step e s) s

/-- The state of a freshly mounted page: role defaults to listener, all
refs empty, the idempotency flag unset. -/
def initState (profileId : String) (isOwner : Bool) : RoomState :=
  { profileId := profileId, isOwner := isOwner, myRole := Role.listener,
    participants := [], pool := [], localStream := none, stoppedTracks := [],
    remoteStreams := [], madeActiveOnce := false, roomActive := false,
    activeLog := [], nextPid := 0, destroyCalled := [], tracked := false,
    subscribed := false }

/-- Number of pool entries stored under a given key. -/
def countKeys {α : Type} (pool : List (String × α)) (k : String) : Nat :=
  (pool.filter (fun p => decide (p.1 = k))).length

/-! ### Shared lemmas about the embedding -/

theorem alookup_filter_ne {α : Type} (l : List (String × α)) (k : String) :
    alookup (l.filter (fun p => decide (p.1 ≠ k))) k = none := by
  induction l with
  | nil => rfl
  | cons p ps ih =>
    by_cases h : p.1 = k
    · simpa [List.filter_cons, h] using ih
    · simpa [List.filter_cons, h, alookup] using ih

theorem countKeys_filter_ne {α : Type} (l : List (String × α)) (k : String) :
    countKeys (l.filter (fun p => decide (p.1 ≠ k))) k = 0 := by
  induction l with
  | nil => rfl
  | cons p ps ih =>
    by_cases h : p.1 = k
    · simp only [countKeys] at ih ⊢
      simp [List.filter_cons, h, ih]
    · simp only [countKeys] at ih ⊢
      simp [List.filter_cons, h, ih]

theorem alookup_routeTo (pool : List (String × PeerLink)) (rid : String) (d : Nat) :
    alookup (routeTo pool rid d) rid =
      (alookup pool rid).map (fun l => { l with inbox := l.inbox ++ [d] }) := by
  induction pool with
  | nil => rfl
  | cons p ps ih =>
    by_cases h : p.1 = rid
    · simp [routeTo, alookup, h]
    · simp only [routeTo, List.map_cons, if_neg h]
      simpa [alookup, h] using ih

theorem attachTracks_pid (s : RoomState) (l : PeerLink) :
    (attachTracks s l).pid = l.pid := by
  unfold attachTracks
  split
  · split <;> rfl
  · rfl

theorem attachTracks_initiator (s : RoomState) (l : PeerLink) :
    (attachTracks s l).initiator = l.initiator := by
  unfold attachTracks
  split
  · split <;> rfl
  · rfl

theorem attachTracks_inbox (s : RoomState) (l : PeerLink) :
    (attachTracks s l).inbox = l.inbox := by
  unfold attachTracks
  split
  · split <;> rfl
  · rfl

theorem alookup_cons {α : Type} (k : String) (v : α) (l : List (String × α))
    (q : String) :
    alookup ((k, v) :: l) q = if k = q then some v else alookup l q := rfl

theorem alookup_planStep_isSome (s : RoomState) (p : String × Role) (rid : String) :
    (alookup (planStep s p).pool rid).isSome = true ↔
      ((alookup s.pool rid).isSome = true ∨ rid = p.1) := by
  unfold planStep
  cases h : alookup s.pool p.1 with
  | some l =>
    constructor
    · exact Or.inl
    · rintro (hx | rfl)
      · exact hx
      · simp [h]
  | none =>
    simp only [createPeer, alookup_cons]
    by_cases hr : p.1 = rid
    · simp [hr]
    · rw [if_neg hr]
      constructor
      · exact fun hx => Or.inl hx
      · rintro (hx | rfl)
        · exact hx
        · exact absurd rfl hr

theorem alookup_foldl_planStep (l : List (String × Role)) (s : RoomState)
    (rid : String) :
    (alookup (l.foldl planStep s).pool rid).isSome = true ↔
      ((alookup s.pool rid).isSome = true ∨ rid ∈ l.map Prod.fst) := by
  induction l generalizing s with
  | nil => simp
  | cons p ps ih =>
    rw [List.foldl_cons, ih (planStep s p), alookup_planStep_isSome]
    simp only [List.map_cons, List.mem_cons]
    tauto

theorem recvSignal_lookup_isSome (s : RoomState) (src : String) (d : Nat)
    (h : src ≠ s.profileId) :
    (alookup (recvSignal src d s).pool src).isSome = true := by
  unfold recvSignal
  rw [if_neg h]
  cases h0 : alookup s.pool src with
  | some old => simp [alookup_routeTo, h0]
  | none => simp [alookup_routeTo, createPeer, alookup_cons]

theorem recvSignal_lookup_new (s : RoomState) (src : String) (d : Nat)
    (h : src ≠ s.profileId) (h0 : alookup s.pool src = none) :
    (alookup (recvSignal src d s).pool src).map PeerLink.initiator = some false ∧
      (alookup (recvSignal src d s).pool src).map PeerLink.inbox = some [d] := by
  unfold recvSignal
  rw [if_neg h]
  rw [h0]
  simp [alookup_routeTo, createPeer, alookup_cons, attachTracks_initiator,
    attachTracks_inbox]

theorem recvSignal_lookup_old (s : RoomState) (src : String) (d : Nat)
    (old : PeerLink) (h : src ≠ s.profileId)
    (h0 : alookup s.pool src = some old) :
    (alookup (recvSignal src d s).pool src).map PeerLink.inbox
      = some (old.inbox ++ [d]) := by
  unfold recvSignal
  rw [if_neg h]
  rw [h0]
  simp [alookup_routeTo, h0]

theorem setRoomActive_frame (b : Bool) (s : RoomState) :
    (setRoomActive b s).isOwner = s.isOwner ∧
      (setRoomActive b s).myRole = s.myRole ∧
      (setRoomActive b s).madeActiveOnce = s.madeActiveOnce ∧
      (setRoomActive b s).activeLog = s.activeLog ++ [b] :=
  ⟨rfl, rfl, rfl, rfl⟩

theorem stopMic_frame (s : RoomState) :
    (stopMic s).isOwner = s.isOwner ∧ (stopMic s).myRole = s.myRole ∧
      (stopMic s).activeLog = s.activeLog ∧
      (stopMic s).madeActiveOnce = s.madeActiveOnce ∧
      (stopMic s).pool = s.pool ∧ (stopMic s).localStream = none := by
  unfold stopMic
  split <;> simp_all

theorem startMic_frame (env : MicEnv) (s : RoomState) :
    (startMic env s).isOwner = s.isOwner ∧ (startMic env s).myRole = s.myRole ∧
      (startMic env s).activeLog = s.activeLog ∧
      (startMic env s).madeActiveOnce = s.madeActiveOnce := by
  unfold startMic
  repeat' split
  all_goals exact ⟨rfl, rfl, rfl, rfl⟩

theorem recvSignal_frame (src : String) (d : Nat) (s : RoomState) :
    (recvSignal src d s).isOwner = s.isOwner ∧
      (recvSignal src d s).myRole = s.myRole ∧
      (recvSignal src d s).activeLog = s.activeLog ∧
      (recvSignal src d s).madeActiveOnce = s.madeActiveOnce := by
  unfold recvSignal
  repeat' split
  all_goals exact ⟨rfl, rfl, rfl, rfl⟩

theorem planStep_frame (s : RoomState) (p : String × Role) :
    (planStep s p).isOwner = s.isOwner ∧ (planStep s p).myRole = s.myRole ∧
      (planStep s p).activeLog = s.activeLog ∧
      (planStep s p).madeActiveOnce = s.madeActiveOnce := by
  unfold planStep
  split
  all_goals exact ⟨rfl, rfl, rfl, rfl⟩

theorem foldl_planStep_frame (l : List (String × Role)) (s : RoomState) :
    (l.foldl planStep s).isOwner = s.isOwner ∧
      (l.foldl planStep s).myRole = s.myRole ∧
      (l.foldl planStep s).activeLog = s.activeLog ∧
      (l.foldl planStep s).madeActiveOnce = s.madeActiveOnce := by
  induction l generalizing s with
  | nil => exact ⟨rfl, rfl, rfl, rfl⟩
  | cons p ps ih =>
    rw [List.foldl_cons]
    obtain ⟨h1, h2, h3, h4⟩ := ih (planStep s p)
    obtain ⟨g1, g2, g3, g4⟩ := planStep_frame s p
    exact ⟨h1.trans g1, h2.trans g2, h3.trans g3, h4.trans g4⟩

theorem planEffect_frame (s : RoomState) :
    (planEffect s).isOwner = s.isOwner ∧ (planEffect s).myRole = s.myRole ∧
      (planEffect s).activeLog = s.activeLog ∧
      (planEffect s).madeActiveOnce = s.madeActiveOnce :=
  foldl_planStep_frame (planCandidates s) s

theorem attemptRebuild_frame (rid : String) (s : RoomState) :
    (attemptRebuild rid s).isOwner = s.isOwner ∧
      (attemptRebuild rid s).myRole = s.myRole ∧
      (attemptRebuild rid s).activeLog = s.activeLog ∧
      (attemptRebuild rid s).madeActiveOnce = s.madeActiveOnce := by
  unfold attemptRebuild
  split
  all_goals exact ⟨rfl, rfl, rfl, rfl⟩

theorem runEvents_cons (e : Event) (evs : List Event) (s : RoomState) :
    runEvents (e :: evs) s = runEvents evs (step e s) := rfl

/-- Everything the effect cleanup guarantees, for any throw behaviour of the
guarded sub-steps, outside the hot-reload exemption. -/
theorem teardown_spec (isDev hmr u : Bool) (t : List String) (s : RoomState)
    (h : ¬(isDev = true ∧ hmr = true)) :
    (teardown isDev hmr u t s).pool = [] ∧
      (teardown isDev hmr u t s).subscribed = false ∧
      (teardown isDev hmr u t s).localStream = none ∧
      (teardown isDev hmr u t s).remoteStreams = [] ∧
      (teardown isDev hmr u t s).destroyCalled
          = s.destroyCalled ++ s.pool.map (fun p => p.2.pid) ∧
      (teardown isDev hmr u t s).stoppedTracks
          = s.stoppedTracks ++ s.localStream.elim [] MediaStream.tracks ∧
      (teardown isDev hmr u t s).isOwner = s.isOwner ∧
      (teardown isDev hmr u t s).myRole = s.myRole ∧
      (teardown isDev hmr u t s).madeActiveOnce = s.madeActiveOnce ∧
      (teardown isDev hmr u t s).activeLog
          = s.activeLog ++ (if s.isOwner = true then [false] else []) ∧
      (teardown isDev hmr u t s).roomActive
          = (if s.isOwner = true then false else s.roomActive) := by
  unfold teardown
  rw [if_neg h]
  cases hls : s.localStream with
  | none => by_cases ho : s.isOwner = true <;> simp [stopMic, setRoomActive, hls, ho]
  | some st => by_cases ho : s.isOwner = true <;> simp [stopMic, setRoomActive, hls, ho]

/-- The write log stays within its idempotency budget across any single
delivered event. -/
theorem logInv_step (e : Event) (s : RoomState)
    (h : s.activeLog.count true ≤ if s.madeActiveOnce = true then 1 else 0) :
    (step e s).activeLog.count true ≤
      if (step e s).madeActiveOnce = true then 1 else 0 := by
  cases e with
  | presenceEv ps => simpa [step, presenceSync] using h
  | subscribedEv =>
    simp only [step]
    by_cases ht : s.tracked = true
    · simpa [subscribedCb, ht] using h
    · by_cases ho : s.isOwner = true
      · by_cases hm : s.madeActiveOnce = false
        · rw [hm] at h
          simp only [Bool.false_eq_true, if_false, Nat.le_zero] at h
          simp [subscribedCb, ht, ho, hm, setRoomActive, List.count_append,
            List.count_cons, h]
        · have hm' : s.madeActiveOnce = true := by simpa using hm
          simpa [subscribedCb, ht, ho, hm'] using h
      · have ho' : s.isOwner = false := by simpa using ho
        simpa [subscribedCb, ht, ho'] using h
  | signalEv src d =>
    obtain ⟨-, -, h3, h4⟩ := recvSignal_frame src d s
    simp only [step, h3, h4]
    exact h
  | planEv =>
    obtain ⟨-, -, h3, h4⟩ := planEffect_frame s
    simp only [step, h3, h4]
    exact h
  | micTimerEv env =>
    simp only [step]
    unfold micTimer
    obtain ⟨-, -, h3, h4⟩ := startMic_frame env s
    obtain ⟨-, -, g3, g4, -, -⟩ := stopMic_frame s
    split
    · simp only [h3, h4]
      exact h
    · simp only [g3, g4]
      exact h
  | speakerEv =>
    simp only [step]
    by_cases ho : s.isOwner = false
    · simpa [becomeSpeaker, ho] using h
    · by_cases hm : s.madeActiveOnce = true
      · simpa [becomeSpeaker, ho, hm] using h
      · have hm' : s.madeActiveOnce = false := by simpa using hm
        rw [hm'] at h
        simp only [Bool.false_eq_true, if_false, Nat.le_zero] at h
        simp [becomeSpeaker, ho, hm', setRoomActive, List.count_append,
          List.count_cons, h]
  | listenerEv =>
    simp only [step]
    by_cases ho : s.isOwner = true
    · simpa [becomeListener, ho, setRoomActive, List.count_append,
        List.count_cons] using h
    · simpa [becomeListener, ho] using h
  | endRoomEv =>
    simp only [step]
    by_cases ho : s.isOwner = false
    · simpa [endRoom, ho] using h
    · obtain ⟨-, -, hlog, hmade, -, -⟩ := stopMic_frame s
      simpa [endRoom, ho, setRoomActive, List.count_append, List.count_cons,
        hlog, hmade] using h
  | rebuildEv rid =>
    obtain ⟨-, -, h3, h4⟩ := attemptRebuild_frame rid s
    simp only [step, h3, h4]
    exact h
  | streamEv rid sid => simpa [step, attachRemote] using h
  | teardownEv dev hmr u t =>
    by_cases hd : dev = true ∧ hmr = true
    · simpa [step, teardown, hd.1, hd.2] using h
    · obtain ⟨-, -, -, -, -, -, -, -, hmade, hlog, -⟩ := teardown_spec dev hmr u t s hd
      simp only [step, hlog, hmade]
      by_cases ho : s.isOwner = true <;>
        simpa [ho, List.count_append, List.count_cons] using h

theorem logInv_run (evs : List Event) (s : RoomState)
    (h : s.activeLog.count true ≤ if s.madeActiveOnce = true then 1 else 0) :
    (runEvents evs s).activeLog.count true ≤
      if (runEvents evs s).madeActiveOnce = true then 1 else 0 := by
  induction evs generalizing s with
  | nil => exact h
  | cons e evs ih =>
    rw [runEvents_cons]
    exact ih (step e s) (logInv_step e s h)

/-- A non-owner session stays `isOwner = false` and `myRole = listener`
across any single delivered event. -/
theorem listener_step (e : Event) (s : RoomState)
    (h1 : s.isOwner = false) (h2 : s.myRole = Role.listener) :
    (step e s).isOwner = false ∧ (step e s).myRole = Role.listener := by
  cases e with
  | presenceEv ps => exact ⟨h1, h2⟩
  | subscribedEv =>
    by_cases ht : s.tracked = true
    · simp [step, subscribedCb, ht, h1, h2]
    · simp [step, subscribedCb, ht, h1, h2]
  | signalEv src d =>
    obtain ⟨g1, g2, -, -⟩ := recvSignal_frame src d s
    exact ⟨g1.trans h1, g2.trans h2⟩
  | planEv =>
    obtain ⟨g1, g2, -, -⟩ := planEffect_frame s
    exact ⟨g1.trans h1, g2.trans h2⟩
  | micTimerEv env =>
    simp only [step]
    unfold micTimer
    obtain ⟨f1, f2, -, -⟩ := startMic_frame env s
    obtain ⟨g1, g2, -, -, -, -⟩ := stopMic_frame s
    split
    · exact ⟨f1.trans h1, f2.trans h2⟩
    · exact ⟨g1.trans h1, g2.trans h2⟩
  | speakerEv => simp [step, becomeSpeaker, h1, h2]
  | listenerEv => simp [step, becomeListener, h1]
  | endRoomEv => simp [step, endRoom, h1, h2]
  | rebuildEv rid =>
    obtain ⟨g1, g2, -, -⟩ := attemptRebuild_frame rid s
    exact ⟨g1.trans h1, g2.trans h2⟩
  | streamEv rid sid => exact ⟨h1, h2⟩
  | teardownEv dev hmr u t =>
    by_cases hd : dev = true ∧ hmr = true
    · simpa [step, teardown, hd.1, hd.2] using ⟨h1, h2⟩
    · obtain ⟨-, -, -, -, -, -, g1, g2, -, -, -⟩ := teardown_spec dev hmr u t s hd
      exact ⟨g1.trans h1, g2.trans h2⟩

theorem listener_run (evs : List Event) (s : RoomState)
    (h1 : s.isOwner = false) (h2 : s.myRole = Role.listener) :
    (runEvents evs s).isOwner = false ∧
      (runEvents evs s).myRole = Role.listener := by
  induction evs generalizing s with
  | nil => exact ⟨h1, h2⟩
  | cons e evs ih =>
    rw [runEvents_cons]
    obtain ⟨g1, g2⟩ := listener_step e s h1 h2
    exact ih (step e s) g1 g2

/-- C1: for distinct participant identifiers, the initiator election is
antisymmetric: `initiator(A,B) == !initiator(B,A)`, so both sides of a pair
independently agree on a single initiator. -/
theorem C1_initiator_antisymm (a b : String) (h : a ≠ b) :
    isInitiator a b = !isInitiator b a := by
  rcases lt_or_gt_of_ne h with h' | h'
  · simp [isInitiator, h', asymm h']
  · simp [isInitiator, h', asymm h']

theorem C1_initiator_antisymm_witness :
    ("alice" : String) ≠ "bob" ∧
      isInitiator "alice" "bob" = !isInitiator "bob" "alice" :=
  ⟨by decide, C1_initiator_antisymm "alice" "bob" (by decide)⟩

/-- C3: across a session the active flag is written true at most once.
Any trace from a fresh mount produces at most one true-write in the log;
the owner's first transition into speaker performs it and sets the
idempotency flag; once the flag is set, further `becomeSpeaker` calls write
nothing and `becomeListener` never adds a true-write. -/
theorem C3_active_written_true_once :
    (∀ (pid : String) (own : Bool) (evs : List Event),
        (runEvents evs (initState pid own)).activeLog.count true ≤ 1) ∧
      (∀ s : RoomState, s.isOwner = true → s.madeActiveOnce = false →
        (becomeSpeaker s).activeLog = s.activeLog ++ [true] ∧
          (becomeSpeaker s).madeActiveOnce = true) ∧
      (∀ s : RoomState, s.madeActiveOnce = true →
        (becomeSpeaker s).activeLog = s.activeLog) ∧
      (∀ s : RoomState,
        (becomeListener s).activeLog.count true = s.activeLog.count true) := by
  refine ⟨?_, ?_, ?_, ?_⟩
  · intro pid own evs
    have h0 : (initState pid own).activeLog.count true ≤
        if (initState pid own).madeActiveOnce = true then 1 else 0 := by
      simp [initState]
    have h1 := logInv_run evs (initState pid own) h0
    exact h1.trans (by split <;> omega)
  · intro s h1 h2
    simp [becomeSpeaker, h1, h2, setRoomActive]
  · intro s h1
    by_cases ho : s.isOwner = false
    · simp [becomeSpeaker, ho]
    · simp [becomeSpeaker, ho, h1]
  · intro s
    by_cases ho : s.isOwner = true
    · simp [becomeListener, ho, setRoomActive, List.count_append, List.count_cons]
    · simp [becomeListener, ho]

theorem C3_active_written_true_once_witness :
    (initState "owner1" true).isOwner = true ∧
      (initState "owner1" true).madeActiveOnce = false ∧
      ((becomeSpeaker (initState "owner1" true)).activeLog
          = (initState "owner1" true).activeLog ++ [true] ∧
        (becomeSpeaker (initState "owner1" true)).madeActiveOnce = true) :=
  ⟨rfl, rfl, C3_active_written_true_once.2.1 (initState "owner1" true) rfl rfl⟩

/-- C5: `startMic` is a no-op when the local role is not speaker and when a
stream is already held; `stopMic` always leaves no held stream and stops
every track of a held stream; `stopMic` followed by `startMic` while
role = listener leaves no active local media stream. -/
theorem C5_mic_laws :
    (∀ (env : MicEnv) (s : RoomState), s.myRole ≠ Role.speaker →
        startMic env s = s) ∧
      (∀ (env : MicEnv) (s : RoomState), s.localStream.isSome = true →
        startMic env s = s) ∧
      (∀ s : RoomState, (stopMic s).localStream = none) ∧
      (∀ (s : RoomState) (st : MediaStream), s.localStream = some st →
        ∀ tr ∈ st.tracks, tr ∈ (stopMic s).stoppedTracks) ∧
      (∀ (env : MicEnv) (s : RoomState), s.myRole = Role.listener →
        (startMic env (stopMic s)).localStream = none) := by
  refine ⟨?_, ?_, ?_, ?_, ?_⟩
  · intro env s h
    simp [startMic, h]
  · intro env s h
    by_cases hr : s.myRole ≠ Role.speaker
    · simp [startMic, hr]
    · simp [startMic, hr, h]
  · intro s
    exact (stopMic_frame s).2.2.2.2.2
  · intro s st h tr htr
    simp [stopMic, h, List.mem_append, htr]
  · intro env s h
    have h2 : (stopMic s).myRole ≠ Role.speaker := by
      rw [(stopMic_frame s).2.1, h]
      simp
    have h4 : startMic env (stopMic s) = stopMic s := by simp [startMic, h2]
    rw [h4]
    exact (stopMic_frame s).2.2.2.2.2

theorem C5_mic_laws_witness :
    (initState "x" false).myRole ≠ Role.speaker ∧
      startMic { secure := true, hasGUM := true, granted := none }
          (initState "x" false)
        = initState "x" false :=
  ⟨by decide,
    C5_mic_laws.1 { secure := true, hasGUM := true, granted := none }
      (initState "x" false) (by decide)⟩

/-- C4: the ICE/connection state listeners schedule a rebuild after the
fixed 1500 ms delay exactly for the `failed` and `disconnected` states, and
`attemptRebuild` on a pooled remote id destroys the existing link, purges
its remote stream, and leaves exactly one replacement entry, freshly
allocated and built with the same initiator rule. -/
theorem C4_rebuild_replaces_link :
    (∀ st : ConnState,
        scheduleRebuildDelay st = some rebuildDelayMs ↔
          (st = ConnState.failed ∨ st = ConnState.disconnected)) ∧
      rebuildDelayMs = 1500 ∧
      (∀ (s : RoomState) (rid : String) (old : PeerLink),
        alookup s.pool rid = some old →
          (alookup (attemptRebuild rid s).pool rid).map PeerLink.pid
              = some s.nextPid ∧
            (alookup (attemptRebuild rid s).pool rid).map PeerLink.initiator
              = some (isInitiator s.profileId rid) ∧
            countKeys (attemptRebuild rid s).pool rid = 1 ∧
            old.pid ∈ (attemptRebuild rid s).destroyCalled ∧
            alookup (attemptRebuild rid s).remoteStreams rid = none) := by
  refine ⟨?_, rfl, ?_⟩
  · intro st
    constructor
    · intro h
      by_contra hc
      push_neg at hc
      simp [scheduleRebuildDelay, hc.1, hc.2] at h
    · intro h
      rcases h with h | h <;> simp [scheduleRebuildDelay, h]
  · intro s rid old h
    unfold attemptRebuild
    rw [h]
    have hcnt := countKeys_filter_ne s.pool rid
    refine ⟨?_, ?_, ?_, ?_, ?_⟩
    · simp [alookup_cons, createPeer, attachTracks_pid]
    · simp [alookup_cons, createPeer, attachTracks_initiator]
    · simp only [countKeys, createPeer] at hcnt ⊢
      simp [List.filter_cons, hcnt]
    · simp [createPeer, List.mem_append]
    · exact alookup_filter_ne s.remoteStreams rid

theorem C4_rebuild_replaces_link_witness :
    alookup
        ({ initState "a" false with
            pool := [("b", { pid := 7, initiator := true, inbox := [],
                             tracks := [] })] } : RoomState).pool "b"
      = some { pid := 7, initiator := true, inbox := [], tracks := [] } ∧
      countKeys
          (attemptRebuild "b"
            { initState "a" false with
              pool := [("b", { pid := 7, initiator := true, inbox := [],
                               tracks := [] })] }).pool "b"
        = 1 :=
  ⟨by decide,
    (C4_rebuild_replaces_link.2.2
      { initState "a" false with
        pool := [("b", { pid := 7, initiator := true, inbox := [], tracks := [] })] }
      "b" { pid := 7, initiator := true, inbox := [], tracks := [] }
      (by decide)).2.2.1⟩

/-- C9: a signal envelope whose `from` equals the local participant id is
discarded with no state change; otherwise the payload is routed to the
PeerLink for that remote id, creating a responder-side (non-initiating)
link on demand when none exists yet. -/
theorem C9_signal_routing :
    (∀ (s : RoomState) (src : String) (d : Nat), src = s.profileId →
        recvSignal src d s = s) ∧
      (∀ (s : RoomState) (src : String) (d : Nat), src ≠ s.profileId →
        (alookup (recvSignal src d s).pool src).isSome = true ∧
          (alookup s.pool src = none →
            (alookup (recvSignal src d s).pool src).map PeerLink.initiator
                = some false ∧
              (alookup (recvSignal src d s).pool src).map PeerLink.inbox
                = some [d]) ∧
          (∀ old : PeerLink, alookup s.pool src = some old →
            (alookup (recvSignal src d s).pool src).map PeerLink.inbox
              = some (old.inbox ++ [d]))) := by
  constructor
  · intro s src d h
    simp [recvSignal, h]
  · intro s src d h
    exact ⟨recvSignal_lookup_isSome s src d h,
      fun h0 => recvSignal_lookup_new s src d h h0,
      fun old h0 => recvSignal_lookup_old s src d old h h0⟩

theorem C9_signal_routing_witness :
    ("peer2" : String) ≠ (initState "peer1" false).profileId ∧
      (alookup (recvSignal "peer2" 9 (initState "peer1" false)).pool
          "peer2").isSome = true :=
  ⟨by decide,
    (C9_signal_routing.2 (initState "peer1" false) "peer2" 9 (by decide)).1⟩

/-- C10: `attemptRebuild` on a remote id with no pool entry is a complete
no-op, so a rebuild timer that fires after teardown (which empties the
pool) never resurrects a connection and the pool stays empty. -/
theorem C10_rebuild_noop_after_teardown :
    (∀ (s : RoomState) (rid : String), alookup s.pool rid = none →
        attemptRebuild rid s = s) ∧
      (∀ (s : RoomState) (rid : String) (dev hmr u : Bool) (t : List String),
        ¬(dev = true ∧ hmr = true) →
          (teardown dev hmr u t s).pool = [] ∧
            attemptRebuild rid (teardown dev hmr u t s)
              = teardown dev hmr u t s) := by
  have hnoop : ∀ (s : RoomState) (rid : String),
      alookup s.pool rid = none → attemptRebuild rid s = s := by
    intro s rid h
    unfold attemptRebuild
    rw [h]
  refine ⟨hnoop, ?_⟩
  intro s rid dev hmr u t hd
  have hpool := (teardown_spec dev hmr u t s hd).1
  have hnone : alookup (teardown dev hmr u t s).pool rid = none := by
    rw [hpool]
    rfl
  exact ⟨hpool, hnoop _ _ hnone⟩

theorem C10_rebuild_noop_after_teardown_witness :
    alookup (initState "a" false).pool "b" = none ∧
      attemptRebuild "b" (initState "a" false) = initState "a" false :=
  ⟨by decide, C10_rebuild_noop_after_teardown.1 (initState "a" false) "b" (by decide)⟩

/-- C8: outside the hot-reload exemption, teardown unsubscribes from the
relay, destroys every owned PeerLink and clears the pool, stops and
releases the local media stream, and clears the visible remote-stream
state, for any throw behaviour of the guarded sub-steps; the owner
additionally writes the active flag false.  Under the hot-reload exemption
the teardown is skipped entirely. -/
theorem C8_teardown_complete :
    (∀ (s : RoomState) (u : Bool) (t : List String),
        teardown true true u t s = s) ∧
      (∀ (s : RoomState) (dev hmr u : Bool) (t : List String),
        ¬(dev = true ∧ hmr = true) →
          (teardown dev hmr u t s).subscribed = false ∧
            (teardown dev hmr u t s).pool = [] ∧
            (teardown dev hmr u t s).destroyCalled
                = s.destroyCalled ++ s.pool.map (fun p => p.2.pid) ∧
            (teardown dev hmr u t s).localStream = none ∧
            (teardown dev hmr u t s).stoppedTracks
                = s.stoppedTracks ++ s.localStream.elim [] MediaStream.tracks ∧
            (teardown dev hmr u t s).remoteStreams = [] ∧
            (s.isOwner = true →
              (teardown dev hmr u t s).roomActive = false ∧
                (teardown dev hmr u t s).activeLog = s.activeLog ++ [false])) := by
  constructor
  · intro s u t
    simp [teardown]
  · intro s dev hmr u t hd
    obtain ⟨p1, p2, p3, p4, p5, p6, -, -, -, p10, p11⟩ := teardown_spec dev hmr u t s hd
    refine ⟨p2, p1, p5, p3, p6, p4, ?_⟩
    intro ho
    constructor
    · rw [p11, if_pos ho]
    · rw [p10, if_pos ho]

theorem C8_teardown_complete_witness :
    ¬((false : Bool) = true ∧ (false : Bool) = true) ∧
      (initState "o" true).isOwner = true ∧
      (teardown false false true ["b"] (initState "o" true)).roomActive = false :=
  ⟨by decide, rfl,
    ((C8_teardown_complete.2 (initState "o" true) false false true ["b"]
      (by decide)).2.2.2.2.2.2 rfl).1⟩

/-- C2 counterexample: "for every pair of participants who are both
listeners, no pool entry ever exists between them" is false.  A remote is
announced as speaker, the peer-plan effect creates the link, then the
remote demotes to listener: the pool entry persists (the plan effect only
creates, never removes), leaving a pool entry between two listeners. -/
theorem C2_listener_pair_counterexample :
    (runEvents [Event.presenceEv [("b", Role.speaker)], Event.planEv,
        Event.presenceEv [("b", Role.listener)]] (initState "a" false)).myRole
        = Role.listener ∧
      alookup (runEvents [Event.presenceEv [("b", Role.speaker)], Event.planEv,
          Event.presenceEv [("b", Role.listener)]]
          (initState "a" false)).participants "b" = some Role.listener ∧
      (alookup (runEvents [Event.presenceEv [("b", Role.speaker)], Event.planEv,
          Event.presenceEv [("b", Role.listener)]]
          (initState "a" false)).pool "b").isSome = true := by
  decide

/-- C2 amended: the peer-plan effect creates a PeerLink for exactly the
candidates — remotes distinct from self with (local role speaker or remote
role speaker) — and leaves existing entries alone; but the broadcast signal
handler creates a responder PeerLink for any non-self sender regardless of
roles, and entries are never removed on role change, so the creation
condition is not a state invariant. -/
theorem C2_peer_creation_amended :
    (∀ (s : RoomState) (rid : String),
        (alookup (planEffect s).pool rid).isSome = true ↔
          ((alookup s.pool rid).isSome = true ∨
            rid ∈ (planCandidates s).map Prod.fst)) ∧
      (∀ (s : RoomState) (rid : String),
        rid ∈ (planCandidates s).map Prod.fst ↔
          ∃ r : Role, (rid, r) ∈ s.participants ∧ rid ≠ s.profileId ∧
            (s.myRole = Role.speaker ∨ r = Role.speaker)) ∧
      (∀ (s : RoomState) (src : String) (d : Nat), src ≠ s.profileId →
        (alookup (recvSignal src d s).pool src).isSome = true) := by
  refine ⟨?_, ?_, ?_⟩
  · intro s rid
    exact alookup_foldl_planStep (planCandidates s) s rid
  · intro s rid
    constructor
    · intro h
      obtain ⟨p, hp, hfst⟩ := List.mem_map.mp h
      obtain ⟨hp1, hp2⟩ := List.mem_filter.mp hp
      obtain ⟨hp3, hp4⟩ := List.mem_filter.mp hp1
      refine ⟨p.2, ?_, ?_, ?_⟩
      · have hpr : (rid, p.2) = p := by
          rw [← hfst]
        exact hpr ▸ hp3
      · rw [← hfst]
        simpa using hp4
      · simpa using hp2
    · rintro ⟨r, hmem, hne, hrole⟩
      refine List.mem_map.mpr ⟨(rid, r), ?_, rfl⟩
      refine List.mem_filter.mpr ⟨List.mem_filter.mpr ⟨hmem, by simpa using hne⟩, ?_⟩
      simpa using hrole
  · intro s src d h
    exact recvSignal_lookup_isSome s src d h

theorem C2_peer_creation_amended_witness :
    ("remote1" : String) ≠ (initState "self1" false).profileId ∧
      (alookup (recvSignal "remote1" 4 (initState "self1" false)).pool
          "remote1").isSome = true :=
  ⟨by decide,
    C2_peer_creation_amended.2.2 (initState "self1" false) "remote1" 4 (by decide)⟩

/-- C6 counterexample: the claim says the owner's role starts as listener
and the active flag only becomes true after an explicit toggle to speaker.
In the code the owner's subscribe callback tracks the initial role as
speaker and flips the flag true immediately — the trace below contains no
role-toggle event, yet the role is speaker and the flag is already true. -/
theorem C6_owner_join_counterexample :
    (runEvents [Event.subscribedEv] (initState "o" true)).myRole = Role.speaker ∧
      (runEvents [Event.subscribedEv] (initState "o" true)).roomActive = true ∧
      (runEvents [Event.subscribedEv] (initState "o" true)).activeLog = [true] := by
  decide

/-- C6 amended: on the owner's first subscribe callback the initial role is
speaker and the active flag is written true at once (no explicit toggle
involved); a non-owner starts as listener with the flag untouched. -/
theorem C6_owner_join_amended (pid : String) :
    (subscribedCb (initState pid true)).myRole = Role.speaker ∧
      (subscribedCb (initState pid true)).roomActive = true ∧
      (subscribedCb (initState pid true)).activeLog = [true] ∧
      (subscribedCb (initState pid false)).myRole = Role.listener ∧
      (subscribedCb (initState pid false)).roomActive = false ∧
      (subscribedCb (initState pid false)).activeLog = [] := by
  refine ⟨?_, ?_, ?_, ?_, ?_, ?_⟩ <;>
    simp [subscribedCb, initState, setRoomActive]

/-- C7 counterexample: the claim says that after the room has been
activated once, speaker toggles no longer check ownership.  In the code
`becomeSpeaker` rejects every non-owner unconditionally: in a state where
the room is already active (`madeActiveOnce`/`roomActive` true), a
non-owner's toggle is a complete no-op and the role stays listener. -/
theorem C7_ownership_gate_counterexample :
    becomeSpeaker
        { profileId := "b", isOwner := false, myRole := Role.listener,
          participants := [], pool := [], localStream := none,
          stoppedTracks := [], remoteStreams := [], madeActiveOnce := true,
          roomActive := true, activeLog := [true], nextPid := 0,
          destroyCalled := [], tracked := true, subscribed := true }
      = { profileId := "b", isOwner := false, myRole := Role.listener,
          participants := [], pool := [], localStream := none,
          stoppedTracks := [], remoteStreams := [], madeActiveOnce := true,
          roomActive := true, activeLog := [true], nextPid := 0,
          destroyCalled := [], tracked := true, subscribed := true } := by
  decide

/-- C7 amended: `becomeSpeaker` checks ownership on every call, not only
before the first activation: a non-owner's call is always a no-op, the
owner's call always yields role speaker, `becomeListener` never checks
ownership, and consequently a non-owner session's role is listener after
any event trace. -/
theorem C7_ownership_gate_amended :
    (∀ s : RoomState, s.isOwner = false → becomeSpeaker s = s) ∧
      (∀ s : RoomState, s.isOwner = true →
        (becomeSpeaker s).myRole = Role.speaker) ∧
      (∀ s : RoomState, (becomeListener s).myRole = Role.listener) ∧
      (∀ (pid : String) (evs : List Event),
        (runEvents evs (initState pid false)).myRole = Role.listener) := by
  refine ⟨?_, ?_, ?_, ?_⟩
  · intro s h
    simp [becomeSpeaker, h]
  · intro s h
    by_cases hm : s.madeActiveOnce = true <;>
      simp [becomeSpeaker, h, hm, setRoomActive]
  · intro s
    by_cases ho : s.isOwner = true <;>
      simp [becomeListener, ho, setRoomActive]
  · intro pid evs
    exact (listener_run evs (initState pid false) rfl rfl).2

theorem C7_ownership_gate_amended_witness :
    (initState "b" false).isOwner = false ∧
      becomeSpeaker (initState "b" false) = initState "b" false :=
  ⟨rfl, C7_ownership_gate_amended.1 (initState "b" false) rfl⟩

end AudioRoom
